/-
Verification of the IORegion abstraction (src/utils/uds/ioRegion.h).

The header defines `struct ioRegion`: a dispatch table of six function
pointers (free, getDataSize, getLimit, read, syncContents, write) plus an
atomic reference count, and seven static inline wrappers:

  getIORegion        — atomic_inc(&region->refCount)
  putIORegion        — if (atomic_add_return(-1, &refCount) <= 0) free(region)
  getRegionDataSize  — region->getDataSize(region, extent)
  getRegionLimit     — region->getLimit(region, limit)
  readFromRegion     — region->read(region, offset, buffer, size, length)
  syncRegionContents — region->syncContents(region)
  writeToRegion      — region->write(region, offset, data, size, length)

Embedding choices:
  * `off_t` is modelled as `Int`, `size_t` as `Nat`; no claim here depends
    on machine-width overflow, so no wraparound is modelled.
  * `atomic_t refCount` is modelled as an `Int` field (C `atomic_t` is a
    signed int and `atomic_add_return` can drive it below zero).
  * The backend behind the six function pointers is a parameter: a
    `Backend σ` supplies the six operations over an abstract backend
    state `σ`.  An output C pointer parameter becomes a component of the
    returned tuple; the in/out `size_t *length` of `read` becomes an
    `Option Nat` in and an `Option Nat` out (NULL = `none`).
  * Each wrapper records the dispatch-table invocation it performs in an
    observation trace (`calls`), so that properties such as "the backend
    free operation fires exactly once" and "the wrapper invokes the
    backend function exactly once with unchanged arguments" are statable.
    The trace is pure instrumentation: it is written only by the seven
    wrappers, mirroring exactly the single dispatch each wrapper performs.
-/

import Mathlib

set_option linter.unusedVariables false

/-- Modelled from the spec: the result codes come from uds-error.h, which is
not under src/ (ioRegion.h only includes it).  Only the success/error
distinction and the distinctness of the error categories named in the
header's doc comments matter here: success is 0 and every error is a
distinct nonzero code. -/
def UDS_SUCCESS : Int := 0

def UDS_BUFFER_ERROR : Int := 1024

def UDS_INCORRECT_ALIGNMENT : Int := 1025

def UDS_END_OF_FILE : Int := 1026

def UDS_SHORT_READ : Int := 1027

def UDS_OUT_OF_RANGE : Int := 1028

def UDS_UNSUPPORTED : Int := 1029

/-- One invocation of a dispatch-table function pointer, with the arguments
the wrapper passed to it.  Buffer pointers are omitted (the data they carry
appears in the `Backend` operation's arguments/results instead). -/
inductive BackendCall where
  | freeCall : BackendCall
  | getDataSizeCall : BackendCall
  | getLimitCall : BackendCall
  | readCall (offset : Int) (size : Nat) (length : Option Nat) : BackendCall
  | syncContentsCall : BackendCall
  | writeCall (offset : Int) (data : List Nat) (size : Nat) (length : Nat) : BackendCall
deriving DecidableEq, Repr

/-- The six function pointers of `struct ioRegion`, as operations over an
abstract backend state `σ` (the backend-held resources the C code reaches
through the region pointer).  Result codes are `Int`; a C out-parameter is
returned as a tuple component. -/
structure Backend (σ : Type) where
  free : σ → σ
  getDataSize : σ → Int × Int × σ
  getLimit : σ → Int × Int × σ
  read : σ → Int → Nat → Option Nat → Int × List Nat × Option Nat × σ
  syncContents : σ → Int × σ
  write : σ → Int → List Nat → Nat → Nat → Int × σ

/-- The state reachable through an `IORegion *`: the dispatch table, the
`atomic_t refCount` field, the backend state, and the instrumentation trace
of dispatch-table invocations performed by this layer. -/
structure IORegion (σ : Type) where
  backend : Backend σ
  refCount : Int
  store : σ
  calls : List BackendCall

/-- `getIORegion`: `atomic_inc(&region->refCount)`. -/
def getIORegion {σ : Type} (r : IORegion σ) : IORegion σ :=
  { r with refCount := r.refCount + 1 }

/-- `putIORegion`: `if (atomic_add_return(-1, &region->refCount) <= 0)
region->free(region);`.  `atomic_add_return` returns the new value, so the
branch tests `refCount - 1 <= 0`. -/
def putIORegion {σ : Type} (r : IORegion σ) : IORegion σ :=
  if r.refCount - 1 ≤ 0 then
    { r with refCount := r.refCount - 1
             store := r.backend.free r.store
             calls := r.calls ++ [BackendCall.freeCall] }
  else
    { r with refCount := r.refCount - 1 }

/-- `getRegionDataSize`: `return region->getDataSize(region, extent);`.
Returns (result code, extent out-parameter, updated region). -/
def getRegionDataSize {σ : Type} (r : IORegion σ) : Int × Int × IORegion σ :=
  let out := r.backend.getDataSize r.store
  (out.1, out.2.1,
    { r with store := out.2.2, calls := r.calls ++ [BackendCall.getDataSizeCall] })

/-- `getRegionLimit`: `return region->getLimit(region, limit);`. -/
def getRegionLimit {σ : Type} (r : IORegion σ) : Int × Int × IORegion σ :=
  let out := r.backend.getLimit r.store
  (out.1, out.2.1,
    { r with store := out.2.2, calls := r.calls ++ [BackendCall.getLimitCall] })

/-- `readFromRegion`: `return region->read(region, offset, buffer, size,
length);`.  Returns (result code, bytes delivered into the buffer, the
`length` in/out parameter on return, updated region). -/
def readFromRegion {σ : Type} (r : IORegion σ) (offset : Int) (size : Nat)
    (length : Option Nat) : Int × List Nat × Option Nat × IORegion σ :=
  let out := r.backend.read r.store offset size length
  (out.1, out.2.1, out.2.2.1,
    { r with store := out.2.2.2
             calls := r.calls ++ [BackendCall.readCall offset size length] })

/-- `syncRegionContents`: `return region->syncContents(region);`. -/
def syncRegionContents {σ : Type} (r : IORegion σ) : Int × IORegion σ :=
  let out := r.backend.syncContents r.store
  (out.1, { r with store := out.2, calls := r.calls ++ [BackendCall.syncContentsCall] })

/-- `writeToRegion`: `return region->write(region, offset, data, size,
length);`. -/
def writeToRegion {σ : Type} (r : IORegion σ) (offset : Int) (data : List Nat)
    (size : Nat) (length : Nat) : Int × IORegion σ :=
  let out := r.backend.write r.store offset data size length
  (out.1,
    { r with store := out.2
             calls := r.calls ++ [BackendCall.writeCall offset data size length] })

/-- Number of times this layer has invoked the backend `free` operation on
the region (occurrences of `freeCall` in the observation trace). -/
def freeCount {σ : Type} (r : IORegion σ) : Nat :=
  r.calls.countP (fun c => match c with | BackendCall.freeCall => true | _ => false)

/-- One step of reference-count manipulation on a handle: an acquire
(`getIORegion`) or a release (`putIORegion`). -/
inductive RefOp where
  | get : RefOp
  | put : RefOp
deriving DecidableEq, Repr

/-- Run a sequence of acquire/release steps on a region. -/
def runOps {σ : Type} (r : IORegion σ) (ops : List RefOp) : IORegion σ :=
  ops.foldl (fun s op => match op with
    | RefOp.get => getIORegion s
    | RefOp.put => putIORegion s) r

/-- Number of acquires in a sequence of refcount steps. -/
def countGets (ops : List RefOp) : Nat :=
  ops.countP (fun op => match op with | RefOp.get => true | RefOp.put => false)

/-- Number of releases in a sequence of refcount steps. -/
def countPuts (ops : List RefOp) : Nat :=
  ops.countP (fun op => match op with | RefOp.get => false | RefOp.put => true)

/-- A trivial backend over a unit state, used to instantiate theorems about
the reference-counting layer on concrete inputs. -/
def unitBackend : Backend Unit where
  free := id
  getDataSize := fun s => (0, 0, s)
  getLimit := fun s => (0, 0, s)
  read := fun s _ _ length => (0, [], length, s)
  syncContents := fun s => (0, s)
  write := fun s _ _ _ _ => (0, s)

/-- A freshly constructed region over the trivial backend: reference count 1,
empty observation trace. -/
def exampleRegion : IORegion Unit where
  backend := unitBackend
  refCount := 1
  store := ()
  calls := []

/-- A region that has already been torn down once: reference count 0, one
`freeCall` already in the trace. -/
def overReleasedRegion : IORegion Unit where
  backend := unitBackend
  refCount := 0
  store := ()
  calls := [BackendCall.freeCall]

/-- Modelled from the spec: a concrete backend state for the read/write
contract claims.  No backend implementation (file-based or block-range
based) is under src/, so the backend contract of spec §3/§4 is modelled
directly: a block size (the backend's alignment unit), a fixed limit
(maximum valid offset), and the bytes written so far. -/
structure ModelStore where
  blockSize : Nat
  limit : Nat
  data : List Nat
deriving DecidableEq, Repr

/-- Overwrite `bytes` into `old` at position `off`, zero-padding up to `off`
when the existing data is shorter. -/
def writeBytes (old : List Nat) (off : Nat) (bytes : List Nat) : List Nat :=
  let padded := old ++ List.replicate (off - old.length) 0
  padded.take off ++ bytes ++ padded.drop (off + bytes.length)

/-- Modelled from the spec: the backend read operation (spec §4.3 and the
`readFromRegion` doc comment).  Misaligned offset or buffer size →
alignment error; negative offset → out of range; otherwise it delivers as
many stored bytes at `offset` as fit in the buffer; fewer available bytes
than the required minimum (`length` when non-NULL, the whole buffer when
NULL) → end-of-file when nothing is available, short-read otherwise; on
success the actual count is stored back through `length` when non-NULL. -/
def modelRead (s : ModelStore) (offset : Int) (size : Nat) (length : Option Nat) :
    Int × List Nat × Option Nat × ModelStore :=
  if offset % (s.blockSize : Int) ≠ 0 then (UDS_INCORRECT_ALIGNMENT, [], length, s)
  else if size % s.blockSize ≠ 0 then (UDS_INCORRECT_ALIGNMENT, [], length, s)
  else if offset < 0 then (UDS_OUT_OF_RANGE, [], length, s)
  else
    let actual := min size (s.data.length - offset.toNat)
    let required := length.getD size
    if actual < required then
      (if actual = 0 then UDS_END_OF_FILE else UDS_SHORT_READ, [], length, s)
    else
      (UDS_SUCCESS, (s.data.drop offset.toNat).take actual,
        length.map (fun _ => actual), s)

/-- Modelled from the spec: the backend write operation (spec §4.4 and the
`writeToRegion` doc comment).  Misaligned offset → alignment error; buffer
size not a multiple of the block size or data length exceeding the buffer
size → buffer error; negative offset or offset + data length beyond the
limit → out of range; otherwise the first `length` bytes of `data`
overwrite the store at `offset` (this model commits exactly `length`
bytes; the spec leaves padding to the full buffer implementation-specific). -/
def modelWrite (s : ModelStore) (offset : Int) (data : List Nat) (size : Nat)
    (length : Nat) : Int × ModelStore :=
  if offset % (s.blockSize : Int) ≠ 0 then (UDS_INCORRECT_ALIGNMENT, s)
  else if size % s.blockSize ≠ 0 ∨ size < length then (UDS_BUFFER_ERROR, s)
  else if offset < 0 ∨ (s.limit : Int) < offset + length then (UDS_OUT_OF_RANGE, s)
  else (UDS_SUCCESS, { s with data := writeBytes s.data offset.toNat (data.take length) })

/-- Modelled from the spec: the dispatch table over the model store (spec
§4.2: data size = extent of the written data, limit = the fixed maximum
offset; §4.5: sync is a supported no-op in this model; free = teardown, a
no-op on the model store since it holds no descriptors). -/
def modelBackend : Backend ModelStore where
  free := fun s => s
  getDataSize := fun s => (UDS_SUCCESS, (s.data.length : Int), s)
  getLimit := fun s => (UDS_SUCCESS, (s.limit : Int), s)
  read := modelRead
  syncContents := fun s => (UDS_SUCCESS, s)
  write := modelWrite

/-- Modelled from the spec: a freshly constructed region over the model
backend, with reference count 1 (spec §3, lifecycle). -/
def mkModelRegion (blockSize limit : Nat) (data : List Nat) : IORegion ModelStore where
  backend := modelBackend
  refCount := 1
  store := { blockSize := blockSize, limit := limit, data := data }
  calls := []

/-- C1: `putIORegion` decrements the reference count by 1; it invokes the
backend `free` operation (recording `freeCall` and applying the backend
teardown to the backend state) when and only when the resulting count is
≤ 0; otherwise the trace and the backend state are untouched; in either
case the dispatch table is untouched. -/
theorem putIORegion_decrements_and_frees_iff_nonpositive {σ : Type} (r : IORegion σ) :
    (putIORegion r).refCount = r.refCount - 1 ∧
    (putIORegion r).backend = r.backend ∧
    (putIORegion r).calls =
      (if r.refCount - 1 ≤ 0 then r.calls ++ [BackendCall.freeCall] else r.calls) ∧
    (putIORegion r).store =
      (if r.refCount - 1 ≤ 0 then r.backend.free r.store else r.store) := by
  unfold putIORegion
  by_cases h : r.refCount - 1 ≤ 0 <;> simp [h]

/-- C3: `getIORegion` increments the reference count by exactly 1 and does
nothing else: the resulting state is the input state with `refCount`
replaced by `refCount + 1`.  It returns no result code (its result type
carries no code), so it has no failure mode. -/
theorem getIORegion_increments_only {σ : Type} (r : IORegion σ) :
    getIORegion r = { r with refCount := r.refCount + 1 } := by
  rfl

/-- C4: each of the five I/O wrappers is exactly one invocation of the
corresponding dispatch-table function: the result code and every output are
the backend's, the arguments are passed unchanged (they appear verbatim in
the backend application and in the single appended trace record), and
nothing else happens — no retry, no validation, no transformation. -/
theorem wrappers_dispatch_exactly_once {σ : Type} (r : IORegion σ) :
    (∀ offset size length,
      readFromRegion r offset size length =
        (let out := r.backend.read r.store offset size length
         (out.1, out.2.1, out.2.2.1,
           { r with store := out.2.2.2
                    calls := r.calls ++ [BackendCall.readCall offset size length] }))) ∧
    (∀ offset data size length,
      writeToRegion r offset data size length =
        (let out := r.backend.write r.store offset data size length
         (out.1,
           { r with store := out.2
                    calls := r.calls ++ [BackendCall.writeCall offset data size length] }))) ∧
    (getRegionDataSize r =
      (let out := r.backend.getDataSize r.store
       (out.1, out.2.1,
         { r with store := out.2.2, calls := r.calls ++ [BackendCall.getDataSizeCall] }))) ∧
    (getRegionLimit r =
      (let out := r.backend.getLimit r.store
       (out.1, out.2.1,
         { r with store := out.2.2, calls := r.calls ++ [BackendCall.getLimitCall] }))) ∧
    (syncRegionContents r =
      (let out := r.backend.syncContents r.store
       (out.1, { r with store := out.2, calls := r.calls ++ [BackendCall.syncContentsCall] }))) :=
  ⟨fun _ _ _ => rfl, fun _ _ _ _ => rfl, rfl, rfl, rfl⟩

/-- C9: frame property.  Every operation of this layer leaves the dispatch
table (`backend`, the six function-pointer fields) unchanged; the five I/O
wrappers also leave the reference count unchanged; `getIORegion` changes
nothing but the reference count. -/
theorem dispatch_table_immutable {σ : Type} (r : IORegion σ) :
    ((getIORegion r).backend = r.backend ∧ (getIORegion r).store = r.store ∧
      (getIORegion r).calls = r.calls) ∧
    (putIORegion r).backend = r.backend ∧
    (∀ offset size length,
      (readFromRegion r offset size length).2.2.2.backend = r.backend ∧
      (readFromRegion r offset size length).2.2.2.refCount = r.refCount) ∧
    (∀ offset data size length,
      (writeToRegion r offset data size length).2.backend = r.backend ∧
      (writeToRegion r offset data size length).2.refCount = r.refCount) ∧
    ((getRegionDataSize r).2.2.backend = r.backend ∧
      (getRegionDataSize r).2.2.refCount = r.refCount) ∧
    ((getRegionLimit r).2.2.backend = r.backend ∧
      (getRegionLimit r).2.2.refCount = r.refCount) ∧
    ((syncRegionContents r).2.backend = r.backend ∧
      (syncRegionContents r).2.refCount = r.refCount) := by
  refine ⟨⟨rfl, rfl, rfl⟩, ?_, fun _ _ _ => ⟨rfl, rfl⟩, fun _ _ _ _ => ⟨rfl, rfl⟩,
    ⟨rfl, rfl⟩, ⟨rfl, rfl⟩, ⟨rfl, rfl⟩⟩
  unfold putIORegion
  by_cases h : r.refCount - 1 ≤ 0 <;> simp [h]

/-- C10: over-release.  If `putIORegion` is called on a region whose
reference count is already ≤ 0 (teardown has already run), the decremented
count is again ≤ 0 and the backend `free` operation is invoked again: the
code has no guard making teardown at-most-once under over-release. -/
theorem putIORegion_over_release_frees_again {σ : Type} (r : IORegion σ)
    (h : r.refCount ≤ 0) :
    (putIORegion r).refCount = r.refCount - 1 ∧
    (putIORegion r).refCount ≤ 0 ∧
    freeCount (putIORegion r) = freeCount r + 1 := by
  have hb : r.refCount - 1 ≤ 0 := by omega
  unfold putIORegion
  simp [hb, freeCount, List.countP_append, List.countP_cons]

theorem countGets_append (l₁ l₂ : List RefOp) :
    countGets (l₁ ++ l₂) = countGets l₁ + countGets l₂ := by
  simp [countGets, List.countP_append]

theorem countPuts_append (l₁ l₂ : List RefOp) :
    countPuts (l₁ ++ l₂) = countPuts l₁ + countPuts l₂ := by
  simp [countPuts, List.countP_append]

/-- As long as every prefix of the step sequence keeps the reference count
positive (strictly more than `releases - acquires` headroom), running the
sequence only shifts the reference count and touches nothing else: the
backend `free` operation is never invoked. -/
theorem runOps_live {σ : Type} (ops : List RefOp) : ∀ (r : IORegion σ),
    (∀ n, n ≤ ops.length →
      (countPuts (ops.take n) : Int) < r.refCount + countGets (ops.take n)) →
    (runOps r ops).refCount = r.refCount + countGets ops - countPuts ops ∧
    (runOps r ops).backend = r.backend ∧
    (runOps r ops).store = r.store ∧
    (runOps r ops).calls = r.calls := by
  induction ops with
  | nil =>
    intro r h
    simp [runOps, countGets, countPuts]
  | cons op rest ih =>
    intro r h
    cases op with
    | get =>
      have h' : ∀ n, n ≤ rest.length →
          (countPuts (rest.take n) : Int) <
            (getIORegion r).refCount + countGets (rest.take n) := by
        intro n hn
        have := h (n + 1) (by simpa using Nat.succ_le_succ hn)
        simp only [List.take_succ_cons, countPuts, countGets, List.countP_cons,
          getIORegion] at this ⊢
        push_cast at this ⊢
        omega
      have hrun : runOps r (RefOp.get :: rest) = runOps (getIORegion r) rest := rfl
      obtain ⟨h1, h2, h3, h4⟩ := ih (getIORegion r) h'
      rw [hrun]
      refine ⟨?_, h2, h3, h4⟩
      rw [h1]
      simp only [countGets, countPuts, List.countP_cons, getIORegion]
      push_cast
      omega
    | put =>
      have hpos : (1 : Int) < r.refCount := by
        have := h 1 (by simp)
        simpa [countPuts, countGets, List.countP_cons] using this
      have hstep : putIORegion r = { r with refCount := r.refCount - 1 } := by
        unfold putIORegion
        have hng : ¬ (r.refCount - 1 ≤ 0) := by omega
        simp [hng]
      have hproj : ({ r with refCount := r.refCount - 1 } : IORegion σ).refCount =
          r.refCount - 1 := rfl
      have h' : ∀ n, n ≤ rest.length →
          (countPuts (rest.take n) : Int) <
            ({ r with refCount := r.refCount - 1 } : IORegion σ).refCount +
              countGets (rest.take n) := by
        intro n hn
        have := h (n + 1) (by simpa using Nat.succ_le_succ hn)
        rw [hproj]
        simp only [List.take_succ_cons, countPuts, countGets, List.countP_cons] at this ⊢
        push_cast at this ⊢
        omega
      obtain ⟨h1, h2, h3, h4⟩ := ih { r with refCount := r.refCount - 1 } h'
      have hrun : runOps r (RefOp.put :: rest) = runOps (putIORegion r) rest := rfl
      rw [hrun, hstep]
      refine ⟨?_, h2, h3, h4⟩
      rw [h1, hproj]
      simp only [countGets, countPuts, List.countP_cons]
      push_cast
      omega

/-- C2 (amended): on a handle starting at reference count 1, for every
acquire/release sequence with releases = acquires + 1 in which no strict
prefix has more releases than acquires, the backend `free` operation fires
exactly once, on the final step (which is necessarily a release), and on no
strict prefix; moreover `free` can only ever be triggered by `putIORegion`:
`getIORegion` and the five I/O wrappers never invoke it, and `putIORegion`
never un-invokes it (the destroyed state is one-way). -/
theorem teardown_fires_exactly_once {σ : Type} (r : IORegion σ) (ops : List RefOp)
    (h1 : r.refCount = 1)
    (h2 : countPuts ops = countGets ops + 1)
    (h3 : ∀ n, n < ops.length → countPuts (ops.take n) ≤ countGets (ops.take n)) :
    (freeCount (runOps r ops) = freeCount r + 1 ∧
      (∀ n, n < ops.length → freeCount (runOps r (ops.take n)) = freeCount r) ∧
      ops.getLast? = some RefOp.put) ∧
    (∀ (r' : IORegion σ),
      freeCount (getIORegion r') = freeCount r' ∧
      (∀ offset size length,
        freeCount (readFromRegion r' offset size length).2.2.2 = freeCount r') ∧
      (∀ offset data size length,
        freeCount (writeToRegion r' offset data size length).2 = freeCount r') ∧
      freeCount (getRegionDataSize r').2.2 = freeCount r' ∧
      freeCount (getRegionLimit r').2.2 = freeCount r' ∧
      freeCount (syncRegionContents r').2 = freeCount r' ∧
      freeCount r' ≤ freeCount (putIORegion r')) := by
  constructor
  · -- the sequence part
    have hne : ops ≠ [] := by
      intro hnil
      rw [hnil] at h2
      simp [countPuts, countGets] at h2
    obtain ⟨q, b, rfl⟩ : ∃ q b, ops = q ++ [b] := by
      rcases List.eq_nil_or_concat' ops with hnil | ⟨q, b, hq⟩
      · exact absurd hnil hne
      · exact ⟨q, b, hq⟩
    have hlen : (q ++ [b]).length = q.length + 1 := by simp
    have htake : ∀ n, n ≤ q.length → (q ++ [b]).take n = q.take n := by
      intro n hn
      exact List.take_append_of_le_length hn
    have hq3 : ∀ n, n ≤ q.length → countPuts (q.take n) ≤ countGets (q.take n) := by
      intro n hn
      have := h3 n (by omega)
      rwa [htake n hn] at this
    have hqfull : countPuts q ≤ countGets q := by
      have := hq3 q.length (le_refl _)
      rwa [List.take_length] at this
    cases b with
    | get =>
      exfalso
      rw [countPuts_append, countGets_append] at h2
      have e1 : countPuts [RefOp.get] = 0 := rfl
      have e2 : countGets [RefOp.get] = 1 := rfl
      rw [e1, e2] at h2
      omega
    | put =>
      have hqeq : countPuts q = countGets q := by
        rw [countPuts_append, countGets_append] at h2
        have e1 : countPuts [RefOp.put] = 1 := rfl
        have e2 : countGets [RefOp.put] = 0 := rfl
        rw [e1, e2] at h2
        omega
      have hlive : ∀ n, n ≤ q.length →
          (countPuts (q.take n) : Int) < r.refCount + countGets (q.take n) := by
        intro n hn
        have := hq3 n hn
        rw [h1]
        omega
      obtain ⟨hc1, hc2, hc3, hc4⟩ := runOps_live q r hlive
      have hmid : (runOps r q).refCount = 1 := by
        rw [hc1, h1]
        omega
      have hsplit : runOps r (q ++ [RefOp.put]) = putIORegion (runOps r q) := by
        unfold runOps
        rw [List.foldl_append]
        rfl
      have hfire : (putIORegion (runOps r q)).calls =
          (runOps r q).calls ++ [BackendCall.freeCall] := by
        unfold putIORegion
        rw [hmid]
        norm_num
      refine ⟨?_, ?_, by simp⟩
      · rw [hsplit]
        unfold freeCount
        rw [hfire, hc4]
        simp [List.countP_append, List.countP_cons]
      · intro n hn
        have hn' : n ≤ q.length := by
          rw [hlen] at hn
          omega
        rw [htake n hn']
        have hlive' : ∀ m, m ≤ (q.take n).length →
            (countPuts ((q.take n).take m) : Int) <
              r.refCount + countGets ((q.take n).take m) := by
          intro m hm
          rw [List.take_take]
          have hmn : min m n ≤ q.length := le_trans (le_trans (min_le_right m n) hn') (le_refl _)
          have := hq3 (min m n) hmn
          rw [h1]
          omega
        obtain ⟨-, -, -, hcalls⟩ := runOps_live (q.take n) r hlive'
        unfold freeCount
        rw [hcalls]
  · -- free can only come from putIORegion, and never goes away
    intro r'
    refine ⟨?_, fun offset size length => ?_, fun offset data size length => ?_,
      ?_, ?_, ?_, ?_⟩
    · simp [freeCount, getIORegion]
    · simp [freeCount, readFromRegion, List.countP_append, List.countP_cons]
    · simp [freeCount, writeToRegion, List.countP_append, List.countP_cons]
    · simp [freeCount, getRegionDataSize, List.countP_append, List.countP_cons]
    · simp [freeCount, getRegionLimit, List.countP_append, List.countP_cons]
    · simp [freeCount, syncRegionContents, List.countP_append, List.countP_cons]
    · unfold putIORegion freeCount
      by_cases hb : r'.refCount - 1 ≤ 0 <;>
        simp [hb, List.countP_append, List.countP_cons]
/-- C2 counterexample: the sequence release, acquire, release on a fresh
handle (reference count 1) has releases = acquires + 1, yet the backend
`free` operation fires twice, and already fires on the strict prefix of
length 1 — not only on the final release.  The claim as stated, quantified
over all sequences with releases = acquires + 1, is therefore false: it also
needs the hypothesis that no strict prefix has more releases than
acquires. -/
theorem teardown_fires_twice_counterexample :
    countPuts [RefOp.put, RefOp.get, RefOp.put] =
      countGets [RefOp.put, RefOp.get, RefOp.put] + 1 ∧
    exampleRegion.refCount = 1 ∧
    freeCount exampleRegion = 0 ∧
    freeCount (runOps exampleRegion [RefOp.put, RefOp.get, RefOp.put]) = 2 ∧
    freeCount (runOps exampleRegion ([RefOp.put, RefOp.get, RefOp.put].take 1)) = 1 := by
  decide

/-- C2 witness: the amended theorem instantiated on a fresh handle with the
sequence acquire, release, release. -/
theorem teardown_fires_exactly_once_witness :
    (exampleRegion.refCount = 1 ∧
     countPuts [RefOp.get, RefOp.put, RefOp.put] =
       countGets [RefOp.get, RefOp.put, RefOp.put] + 1 ∧
     (∀ n, n < ([RefOp.get, RefOp.put, RefOp.put] : List RefOp).length →
       countPuts ([RefOp.get, RefOp.put, RefOp.put].take n) ≤
         countGets ([RefOp.get, RefOp.put, RefOp.put].take n))) ∧
    ((freeCount (runOps exampleRegion [RefOp.get, RefOp.put, RefOp.put]) =
        freeCount exampleRegion + 1 ∧
      (∀ n, n < ([RefOp.get, RefOp.put, RefOp.put] : List RefOp).length →
        freeCount (runOps exampleRegion ([RefOp.get, RefOp.put, RefOp.put].take n)) =
          freeCount exampleRegion) ∧
      ([RefOp.get, RefOp.put, RefOp.put] : List RefOp).getLast? = some RefOp.put) ∧
     (∀ (r' : IORegion Unit),
       freeCount (getIORegion r') = freeCount r' ∧
       (∀ offset size length,
         freeCount (readFromRegion r' offset size length).2.2.2 = freeCount r') ∧
       (∀ offset data size length,
         freeCount (writeToRegion r' offset data size length).2 = freeCount r') ∧
       freeCount (getRegionDataSize r').2.2 = freeCount r' ∧
       freeCount (getRegionLimit r').2.2 = freeCount r' ∧
       freeCount (syncRegionContents r').2 = freeCount r' ∧
       freeCount r' ≤ freeCount (putIORegion r'))) :=
  ⟨⟨by decide, by decide, by decide⟩,
   teardown_fires_exactly_once exampleRegion [RefOp.get, RefOp.put, RefOp.put]
     (by decide) (by decide) (by decide)⟩

/-- C10 witness: releasing `overReleasedRegion` (count already 0) drives the
count to -1 and invokes the backend `free` a second time. -/
theorem putIORegion_over_release_witness :
    overReleasedRegion.refCount ≤ 0 ∧
    ((putIORegion overReleasedRegion).refCount = overReleasedRegion.refCount - 1 ∧
     (putIORegion overReleasedRegion).refCount ≤ 0 ∧
     freeCount (putIORegion overReleasedRegion) = freeCount overReleasedRegion + 1) :=
  ⟨by decide, putIORegion_over_release_frees_again overReleasedRegion (by decide)⟩

theorem writeBytes_length_ge (old : List Nat) (off : Nat) (bytes : List Nat) :
    off + bytes.length ≤ (writeBytes old off bytes).length := by
  unfold writeBytes
  simp [List.length_append, List.length_take, List.length_replicate]
  omega

theorem writeBytes_slice (old : List Nat) (off : Nat) (bytes : List Nat) :
    ((writeBytes old off bytes).drop off).take bytes.length = bytes := by
  have key : ∀ (A B : List Nat), A.length = off →
      ((A ++ bytes ++ B).drop off).take bytes.length = bytes := by
    intro A B hA
    rw [List.append_assoc, ← hA, List.drop_left, List.take_left]
  unfold writeBytes
  refine key ((old ++ List.replicate (off - old.length) 0).take off)
    ((old ++ List.replicate (off - old.length) 0).drop (off + bytes.length)) ?_
  simp [List.length_take, List.length_append, List.length_replicate]
  omega

/-- On aligned, nonnegative arguments the model read reduces to the
available-versus-required comparison. -/
theorem modelRead_aligned (s : ModelStore) (offset : Int) (size : Nat)
    (length : Option Nat)
    (ha : offset % (s.blockSize : Int) = 0) (hs : size % s.blockSize = 0)
    (hnn : 0 ≤ offset) :
    modelRead s offset size length =
      (if min size (s.data.length - offset.toNat) < length.getD size then
        (if min size (s.data.length - offset.toNat) = 0 then UDS_END_OF_FILE
         else UDS_SHORT_READ, [], length, s)
      else
        (UDS_SUCCESS,
          (s.data.drop offset.toNat).take (min size (s.data.length - offset.toNat)),
          length.map (fun _ => min size (s.data.length - offset.toNat)), s)) := by
  unfold modelRead
  simp [ha, hs, Int.not_lt.mpr hnn]

/-- With an aligned offset, a well-shaped buffer, and the range exceeded,
the model write rejects with the out-of-range code and changes nothing. -/
theorem modelWrite_out_of_range (s : ModelStore) (offset : Int) (data : List Nat)
    (size length : Nat)
    (ha : offset % (s.blockSize : Int) = 0) (hs : size % s.blockSize = 0)
    (hl : length ≤ size) (hr : (s.limit : Int) < offset + length) :
    modelWrite s offset data size length = (UDS_OUT_OF_RANGE, s) := by
  unfold modelWrite
  have h2 : ¬(size % s.blockSize ≠ 0 ∨ size < length) := by
    simp [hs]
    omega
  have h3 : offset < 0 ∨ (s.limit : Int) < offset + length := Or.inr hr
  simp [ha, h2, h3]

/-- C8: on a model-backend region, `readFromRegion` with an offset that is
not aligned to the backend's block size, or with a buffer size that is not
a multiple of the block size, returns the alignment error code and does not
succeed. -/
theorem read_misaligned_is_alignment_error (blockSize limit : Nat) (data : List Nat)
    (offset : Int) (size : Nat) (length : Option Nat)
    (h : offset % (blockSize : Int) ≠ 0 ∨ size % blockSize ≠ 0) :
    (readFromRegion (mkModelRegion blockSize limit data) offset size length).1 =
      UDS_INCORRECT_ALIGNMENT ∧
    (readFromRegion (mkModelRegion blockSize limit data) offset size length).1 ≠
      UDS_SUCCESS := by
  have hc : (readFromRegion (mkModelRegion blockSize limit data) offset size length).1 =
      UDS_INCORRECT_ALIGNMENT := by
    show (modelRead { blockSize := blockSize, limit := limit, data := data }
      offset size length).1 = UDS_INCORRECT_ALIGNMENT
    unfold modelRead
    rcases h with h | h
    · simp [h]
    · by_cases h0 : offset % (blockSize : Int) = 0
      · simp [h0, h]
      · simp [h0]
  exact ⟨hc, by rw [hc]; decide⟩

/-- C8 witness: the spec's concrete scenario — block size 4096, limit 8192,
read at offset 100 is misaligned and rejected. -/
theorem read_misaligned_witness :
    ((100 : Int) % ((4096 : Nat) : Int) ≠ 0 ∨ (4096 : Nat) % (4096 : Nat) ≠ 0) ∧
    ((readFromRegion (mkModelRegion 4096 8192 []) 100 4096 none).1 =
      UDS_INCORRECT_ALIGNMENT ∧
     (readFromRegion (mkModelRegion 4096 8192 []) 100 4096 none).1 ≠ UDS_SUCCESS) :=
  ⟨by decide, read_misaligned_is_alignment_error 4096 8192 [] 100 4096 none (by decide)⟩

/-- C5: on a model-backend region with aligned arguments: with a non-NULL
`length` parameter carrying required minimum `k`, the read succeeds exactly
when the number of bytes actually available to deliver (at most the buffer
size) is at least `k`; on success the actual count is stored back through
the `length` parameter and the delivered bytes are exactly those stored
bytes; with a NULL `length` parameter, a successful read fills the entire
buffer. -/
theorem read_required_length_contract (blockSize limit : Nat) (data : List Nat)
    (offset : Int) (size k : Nat)
    (ha : offset % (blockSize : Int) = 0)
    (hs : size % blockSize = 0)
    (hnn : 0 ≤ offset) :
    ((readFromRegion (mkModelRegion blockSize limit data) offset size (some k)).1 =
        UDS_SUCCESS ↔ k ≤ min size (data.length - offset.toNat)) ∧
    ((readFromRegion (mkModelRegion blockSize limit data) offset size (some k)).1 =
        UDS_SUCCESS →
      (readFromRegion (mkModelRegion blockSize limit data) offset size (some k)).2.2.1 =
        some (min size (data.length - offset.toNat)) ∧
      (readFromRegion (mkModelRegion blockSize limit data) offset size (some k)).2.1 =
        (data.drop offset.toNat).take (min size (data.length - offset.toNat))) ∧
    ((readFromRegion (mkModelRegion blockSize limit data) offset size none).1 =
        UDS_SUCCESS →
      (readFromRegion (mkModelRegion blockSize limit data) offset size none).2.1.length =
        size) := by
  have hk := modelRead_aligned { blockSize := blockSize, limit := limit, data := data }
    offset size (some k) ha hs hnn
  have hn := modelRead_aligned { blockSize := blockSize, limit := limit, data := data }
    offset size none ha hs hnn
  refine ⟨?_, ?_, ?_⟩
  · show (modelRead { blockSize := blockSize, limit := limit, data := data }
        offset size (some k)).1 = UDS_SUCCESS ↔ _
    rw [hk]
    by_cases hlt : min size (data.length - offset.toNat) < (some k).getD size
    · simp only [if_pos hlt]
      simp only [Option.getD_some] at hlt
      by_cases hz : min size (data.length - offset.toNat) = 0 <;>
        simp [hz, UDS_END_OF_FILE, UDS_SHORT_READ, UDS_SUCCESS] <;> omega
    · simp only [if_neg hlt]
      simp only [Option.getD_some] at hlt
      simp
      omega
  · intro hsucc
    rw [show (readFromRegion (mkModelRegion blockSize limit data) offset size (some k)).1 =
        (modelRead { blockSize := blockSize, limit := limit, data := data }
          offset size (some k)).1 from rfl, hk] at hsucc
    by_cases hlt : min size (data.length - offset.toNat) < (some k).getD size
    · exfalso
      rw [if_pos hlt] at hsucc
      by_cases hz : min size (data.length - offset.toNat) = 0 <;>
        simp [hz, UDS_END_OF_FILE, UDS_SHORT_READ, UDS_SUCCESS] at hsucc
    · constructor
      · show (modelRead { blockSize := blockSize, limit := limit, data := data }
            offset size (some k)).2.2.1 = _
        rw [hk, if_neg hlt]
        rfl
      · show (modelRead { blockSize := blockSize, limit := limit, data := data }
            offset size (some k)).2.1 = _
        rw [hk, if_neg hlt]
  · intro hsucc
    rw [show (readFromRegion (mkModelRegion blockSize limit data) offset size none).1 =
        (modelRead { blockSize := blockSize, limit := limit, data := data }
          offset size none).1 from rfl, hn] at hsucc
    by_cases hlt : min size (data.length - offset.toNat) < (none : Option Nat).getD size
    · exfalso
      rw [if_pos hlt] at hsucc
      by_cases hz : min size (data.length - offset.toNat) = 0 <;>
        simp [hz, UDS_END_OF_FILE, UDS_SHORT_READ, UDS_SUCCESS] at hsucc
    · show (modelRead { blockSize := blockSize, limit := limit, data := data }
          offset size none).2.1.length = size
      rw [hn, if_neg hlt]
      simp only [Option.getD_none, not_lt] at hlt
      simp [List.length_take, List.length_drop]
      omega

/-- C5 witness: block size 2, data of 3 bytes, buffer of 4 bytes, required
minimum 2: the short read succeeds and reports 3 bytes. -/
theorem read_required_length_witness :
    ((0 : Int) % ((2 : Nat) : Int) = 0 ∧ (4 : Nat) % (2 : Nat) = 0 ∧ (0 : Int) ≤ 0) ∧
    (((readFromRegion (mkModelRegion 2 8 [1, 2, 3]) 0 4 (some 2)).1 = UDS_SUCCESS ↔
        2 ≤ min 4 (([1, 2, 3] : List Nat).length - (0 : Int).toNat)) ∧
     ((readFromRegion (mkModelRegion 2 8 [1, 2, 3]) 0 4 (some 2)).1 = UDS_SUCCESS →
       (readFromRegion (mkModelRegion 2 8 [1, 2, 3]) 0 4 (some 2)).2.2.1 =
         some (min 4 (([1, 2, 3] : List Nat).length - (0 : Int).toNat)) ∧
       (readFromRegion (mkModelRegion 2 8 [1, 2, 3]) 0 4 (some 2)).2.1 =
         (([1, 2, 3] : List Nat).drop (0 : Int).toNat).take
           (min 4 (([1, 2, 3] : List Nat).length - (0 : Int).toNat))) ∧
     ((readFromRegion (mkModelRegion 2 8 [1, 2, 3]) 0 4 none).1 = UDS_SUCCESS →
       (readFromRegion (mkModelRegion 2 8 [1, 2, 3]) 0 4 none).2.1.length = 4)) :=
  ⟨⟨by decide, by decide, by decide⟩,
   read_required_length_contract 2 8 [1, 2, 3] 0 4 2 (by decide) (by decide) (by decide)⟩

/-- C6: on a model-backend region, a write whose offset plus data length
exceeds the region's limit — with the write's other preconditions (aligned
offset, buffer size a multiple of the block size, data length within the
buffer) holding, since the spec states those as preconditions of write and
leaves the priority among simultaneous failure conditions open — returns
the out-of-range error, leaves the backend store unchanged, and a
subsequent `readFromRegion` with any arguments returns exactly what it
would have returned before the failed write. -/
theorem write_out_of_range_no_partial_write (blockSize limit : Nat) (data0 : List Nat)
    (offset : Int) (data : List Nat) (size length : Nat)
    (ha : offset % (blockSize : Int) = 0)
    (hs : size % blockSize = 0)
    (hl : length ≤ size)
    (hr : (limit : Int) < offset + length) :
    (writeToRegion (mkModelRegion blockSize limit data0) offset data size length).1 =
      UDS_OUT_OF_RANGE ∧
    (writeToRegion (mkModelRegion blockSize limit data0) offset data size length).2.store =
      (mkModelRegion blockSize limit data0).store ∧
    (∀ offset2 size2 length2,
      (readFromRegion
          (writeToRegion (mkModelRegion blockSize limit data0) offset data size length).2
          offset2 size2 length2).1 =
        (readFromRegion (mkModelRegion blockSize limit data0) offset2 size2 length2).1 ∧
      (readFromRegion
          (writeToRegion (mkModelRegion blockSize limit data0) offset data size length).2
          offset2 size2 length2).2.1 =
        (readFromRegion (mkModelRegion blockSize limit data0) offset2 size2 length2).2.1 ∧
      (readFromRegion
          (writeToRegion (mkModelRegion blockSize limit data0) offset data size length).2
          offset2 size2 length2).2.2.1 =
        (readFromRegion (mkModelRegion blockSize limit data0) offset2 size2 length2).2.2.1) := by
  have hmw : modelWrite { blockSize := blockSize, limit := limit, data := data0 }
      offset data size length =
      (UDS_OUT_OF_RANGE, { blockSize := blockSize, limit := limit, data := data0 }) :=
    modelWrite_out_of_range _ offset data size length ha hs hl hr
  have hstore :
      (writeToRegion (mkModelRegion blockSize limit data0) offset data size length).2.store =
        { blockSize := blockSize, limit := limit, data := data0 } := by
    show (modelWrite { blockSize := blockSize, limit := limit, data := data0 }
        offset data size length).2 = _
    rw [hmw]
  refine ⟨?_, hstore, ?_⟩
  · show (modelWrite { blockSize := blockSize, limit := limit, data := data0 }
        offset data size length).1 = UDS_OUT_OF_RANGE
    rw [hmw]
  · intro offset2 size2 length2
    have hmr : modelRead
        (writeToRegion (mkModelRegion blockSize limit data0) offset data size length).2.store
          offset2 size2 length2 =
        modelRead { blockSize := blockSize, limit := limit, data := data0 }
          offset2 size2 length2 := by
      rw [hstore]
    exact ⟨congrArg (fun p => p.1) hmr, congrArg (fun p => p.2.1) hmr,
      congrArg (fun p => p.2.2.1) hmr⟩

/-- C6 witness: the spec's concrete scenario — block size 4096, limit 8192,
writing 4096 bytes at offset 8192 is out of range and changes nothing. -/
theorem write_out_of_range_witness :
    ((8192 : Int) % ((4096 : Nat) : Int) = 0 ∧ (4096 : Nat) % (4096 : Nat) = 0 ∧
      (4096 : Nat) ≤ (4096 : Nat) ∧ ((8192 : Nat) : Int) < (8192 : Int) + (4096 : Nat)) ∧
    ((writeToRegion (mkModelRegion 4096 8192 [5]) 8192 [7] 4096 4096).1 =
        UDS_OUT_OF_RANGE ∧
     (writeToRegion (mkModelRegion 4096 8192 [5]) 8192 [7] 4096 4096).2.store =
        (mkModelRegion 4096 8192 [5]).store ∧
     (∀ offset2 size2 length2,
       (readFromRegion (writeToRegion (mkModelRegion 4096 8192 [5]) 8192 [7] 4096 4096).2
          offset2 size2 length2).1 =
         (readFromRegion (mkModelRegion 4096 8192 [5]) offset2 size2 length2).1 ∧
       (readFromRegion (writeToRegion (mkModelRegion 4096 8192 [5]) 8192 [7] 4096 4096).2
          offset2 size2 length2).2.1 =
         (readFromRegion (mkModelRegion 4096 8192 [5]) offset2 size2 length2).2.1 ∧
       (readFromRegion (writeToRegion (mkModelRegion 4096 8192 [5]) 8192 [7] 4096 4096).2
          offset2 size2 length2).2.2.1 =
         (readFromRegion (mkModelRegion 4096 8192 [5]) offset2 size2 length2).2.2.1)) :=
  ⟨⟨by decide, by decide, by decide, by decide⟩,
   write_out_of_range_no_partial_write 4096 8192 [5] 8192 [7] 4096 4096
     (by decide) (by decide) (by decide) (by decide)⟩

/-- C7: round-trip on a model-backend region.  If a write of `n` bytes at
an aligned, nonnegative offset (buffer size and data length both `n`, `n` a
multiple of the block size) succeeds, then reading `n` bytes at the same
offset succeeds and returns exactly the bytes that were written. -/
theorem write_then_read_round_trip (blockSize limit : Nat) (data0 : List Nat)
    (offset : Int) (data : List Nat) (n : Nat)
    (ha : offset % (blockSize : Int) = 0)
    (hn : n % blockSize = 0)
    (hnn : 0 ≤ offset)
    (hlen : data.length = n)
    (hsucc : (writeToRegion (mkModelRegion blockSize limit data0) offset data n n).1 =
      UDS_SUCCESS) :
    (readFromRegion (writeToRegion (mkModelRegion blockSize limit data0) offset data n n).2
        offset n none).1 = UDS_SUCCESS ∧
    (readFromRegion (writeToRegion (mkModelRegion blockSize limit data0) offset data n n).2
        offset n none).2.1 = data := by
  have htake : data.take n = data := by
    rw [← hlen]
    exact List.take_length data
  have hcode : (writeToRegion (mkModelRegion blockSize limit data0) offset data n n).1 =
      (modelWrite { blockSize := blockSize, limit := limit, data := data0 } offset data n n).1 := rfl
  rw [hcode] at hsucc
  have hg2 : ¬(n % blockSize ≠ 0 ∨ n < n) := by
    simp [hn]
  have hg3 : ¬(offset < 0 ∨ (limit : Int) < offset + n) := by
    intro hg
    have hout : (modelWrite { blockSize := blockSize, limit := limit, data := data0 } offset data n n).1 = UDS_OUT_OF_RANGE := by
      unfold modelWrite
      simp [ha, hg2, hg, hn]
    rw [hout] at hsucc
    exact (by decide : UDS_OUT_OF_RANGE ≠ UDS_SUCCESS) hsucc
  have hmw : modelWrite { blockSize := blockSize, limit := limit, data := data0 } offset data n n = (UDS_SUCCESS, { blockSize := blockSize, limit := limit, data := writeBytes data0 offset.toNat data }) := by
    unfold modelWrite
    simp [ha, hn, hg2, hg3, htake]
  have hstore : (writeToRegion (mkModelRegion blockSize limit data0) offset data n n).2.store = { blockSize := blockSize, limit := limit, data := writeBytes data0 offset.toNat data } := by
    show (modelWrite { blockSize := blockSize, limit := limit, data := data0 } offset data n n).2 = _
    rw [hmw]
  have hlen2 : offset.toNat + n ≤ (writeBytes data0 offset.toNat data).length := by
    have := writeBytes_length_ge data0 offset.toNat data
    omega
  have hactual : min n ((writeBytes data0 offset.toNat data).length - offset.toNat) = n := by
    omega
  have hmr2 : modelRead { blockSize := blockSize, limit := limit, data := writeBytes data0 offset.toNat data } offset n none = (UDS_SUCCESS, ((writeBytes data0 offset.toNat data).drop offset.toNat).take n, none, { blockSize := blockSize, limit := limit, data := writeBytes data0 offset.toNat data }) := by
    rw [modelRead_aligned { blockSize := blockSize, limit := limit, data := writeBytes data0 offset.toNat data } offset n none ha hn hnn]
    have hcond : ¬(min n ((writeBytes data0 offset.toNat data).length - offset.toNat) <
        (none : Option Nat).getD n) := by
      simp [hactual]
    rw [if_neg hcond, hactual]
    rfl
  have hmr : modelRead (writeToRegion (mkModelRegion blockSize limit data0) offset data n n).2.store offset n none = (UDS_SUCCESS, ((writeBytes data0 offset.toNat data).drop offset.toNat).take n, none, { blockSize := blockSize, limit := limit, data := writeBytes data0 offset.toNat data }) := by
    rw [hstore, hmr2]
  constructor
  · exact congrArg (fun p => p.1) hmr
  · have hbuf : (readFromRegion (writeToRegion (mkModelRegion blockSize limit data0) offset data n n).2 offset n none).2.1 = ((writeBytes data0 offset.toNat data).drop offset.toNat).take n :=
      congrArg (fun p => p.2.1) hmr
    rw [hbuf, ← hlen]
    exact writeBytes_slice data0 offset.toNat data

/-- C7 witness: block size 2, limit 8, writing bytes [7, 9] at offset 2 then
reading 2 bytes at offset 2 returns [7, 9]. -/
theorem write_then_read_round_trip_witness :
    ((2 : Int) % ((2 : Nat) : Int) = 0 ∧ (2 : Nat) % (2 : Nat) = 0 ∧ (0 : Int) ≤ 2 ∧
      ([7, 9] : List Nat).length = 2 ∧
      (writeToRegion (mkModelRegion 2 8 []) 2 [7, 9] 2 2).1 = UDS_SUCCESS) ∧
    ((readFromRegion (writeToRegion (mkModelRegion 2 8 []) 2 [7, 9] 2 2).2 2 2 none).1 =
        UDS_SUCCESS ∧
     (readFromRegion (writeToRegion (mkModelRegion 2 8 []) 2 [7, 9] 2 2).2 2 2 none).2.1 =
        [7, 9]) :=
  ⟨⟨by decide, by decide, by decide, by decide, by decide⟩,
   write_then_read_round_trip 2 8 [] 2 [7, 9] 2
     (by decide) (by decide) (by decide) (by decide) (by decide)⟩
